import Mathlib

/-!
Shallow embedding of tilt2transform.py (aln2xf).

The script computes a single rigid 2D transform between two tomograms,
either from two AreTomo .aln files (near-zero-tilt entries, matched by
section index) or from two IMOD .xf files (matched positionally), and
serializes a 3x4 matrix.

Modelling conventions:
 * Python floats are modelled as real numbers; values obtained by parsing
   decimal literals are modelled as rationals (exact).  Non-finite float
   literals ("inf", "nan") are outside the model.
 * A whitespace-separated field of a line is abstracted by the observable
   behaviour of the only operations the script applies to it, namely
   `int(field)` and `float(field)` (each either succeeds with a value or
   raises ValueError).
 * A physical line is abstracted by how the parsers classify it after
   `line.strip()`: empty, starting with '#', or a list of fields
   (`line.split()`).
 * `sys.exit(msg)` (exit status 1, message printed) is modelled by a
   `RunResult.exit` carrying the message as structured data; an uncaught
   Python exception by `RunResult.exn`.  A successful run carries the text
   written to the output file; the output file exists only in that case.
-/

set_option maxHeartbeats 1000000

namespace T2T

/-- A whitespace-separated field, abstracted by the results of Python
`int()` and `float()` on it: `asInt`/`asFloat` is `none` exactly when the
conversion raises ValueError. -/
structure Tok where
  asInt : Option ℤ
  asFloat : Option ℚ
  deriving DecidableEq

/-- A field that is a decimal integer literal: both conversions succeed. -/
def intTok (n : ℤ) : Tok := ⟨some n, some (n : ℚ)⟩

/-- A field that is a non-integer float literal (e.g. "1.5"): only
`float()` succeeds. -/
def floatTok (q : ℚ) : Tok := ⟨none, some q⟩

/-- A field that is not numeric at all: both conversions raise. -/
def badTok : Tok := ⟨none, none⟩

/-- A physical input line, classified the way both parsers do after
`strip()`: blank, `#`-comment, or data with its `split()` fields. -/
inductive Line where
  | blank
  | comment
  | data (fields : List Tok)
  deriving DecidableEq

/-- One .aln record: (rot, tx, ty, tilt). -/
abbrev AlnRec := ℚ × ℚ × ℚ × ℚ

/-- The Python dict built by parse_aln, as an association list in insertion
order with the dict's update semantics (`dictInsert`). -/
abbrev AlnDict := List (ℤ × AlnRec)

/-- Python dict assignment `d[sec] = v`: overwrite in place if the key is
present, else append. -/
def dictInsert (d : AlnDict) (k : ℤ) (v : AlnRec) : AlnDict :=
  if d.any (fun p => p.1 = k) then d.map (fun p => if p.1 = k then (k, v) else p)
  else d ++ [(k, v)]

/-- Association-list lookup (Python `d[sec]`). -/
def alookup {β : Type} : List (ℤ × β) → ℤ → Option β
  | [], _ => none
  | (k, v) :: rest, key => if key = k then some v else alookup rest key

/-- Python `k in d` (via `set(d)`). -/
def hasKey (d : AlnDict) (k : ℤ) : Bool := decide (k ∈ d.map Prod.fst)

/-- The record the parse_aln loop body extracts from a line: `none` for a
data line that is malformed (fewer than 5 fields, field 0 not an int, or
one of fields 1-4 not a float), and `none` for blank/comment lines (which
the loop never reaches this point with). -/
def alnRecord : Line → Option (ℤ × AlnRec)
  | Line.data parts =>
    if parts.length < 5 then none
    else
      match (parts.get? 0).bind Tok.asInt, (parts.get? 1).bind Tok.asFloat,
            (parts.get? 2).bind Tok.asFloat, (parts.get? 3).bind Tok.asFloat,
            (parts.get? 4).bind Tok.asFloat with
      | some sec, some rot, some tx, some ty, some tilt => some (sec, (rot, tx, ty, tilt))
      | _, _, _, _, _ => none
  | _ => none

/-- parse_aln's scan (source lines 34-49): skip blank/comment lines; on a
data line either insert the parsed record and continue, or `break` (both
the `len(parts) < 5` check and the `except ValueError` land here). -/
def parseAlnGo : List Line → AlnDict → AlnDict
  | [], d => d
  | Line.blank :: rest, d => parseAlnGo rest d
  | Line.comment :: rest, d => parseAlnGo rest d
  | Line.data parts :: rest, d =>
    match alnRecord (Line.data parts) with
    | some (sec, r) => parseAlnGo rest (dictInsert d sec r)
    | none => d

/-- parse_aln (source lines 31-50), applied to the file's lines. -/
def parse_aln (lines : List Line) : AlnDict := parseAlnGo lines []

/-- Uncaught Python exceptions the script can die with. -/
inductive PyExn where
  | typeError
  | valueError
  deriving DecidableEq

/-- math.atan2, via the complex argument: atan2(y, x) = arg(x + y*i),
with the same principal range (-pi, pi]. -/
noncomputable def atan2 (y x : ℝ) : ℝ :=
  Complex.arg (Complex.ofReal x + Complex.ofReal y * Complex.I)

/-- math.degrees. -/
noncomputable def degrees (r : ℝ) : ℝ := r * 180 / Real.pi

/-- math.radians. -/
noncomputable def radians (d : ℝ) : ℝ := d * Real.pi / 180

/-- One .xf entry: (rot_deg, dx, dy); the rotation is a real number
(computed through atan2), the translations are parsed literals. -/
abbrev XfEntry := ℝ × ℚ × ℚ

/-- parse_xf (source lines 52-71): skip blank/comment lines and lines with
fewer than 6 fields; parse the first 6 fields as floats (an unparsable
field raises an uncaught ValueError, killing the whole run); append
(degrees(atan2(a21, a11)), dx, dy). -/
noncomputable def parse_xf : List Line → Except PyExn (List XfEntry)
  | [] => Except.ok []
  | Line.blank :: rest => parse_xf rest
  | Line.comment :: rest => parse_xf rest
  | Line.data vals :: rest =>
    if vals.length < 6 then parse_xf rest
    else
      match (vals.get? 0).bind Tok.asFloat, (vals.get? 1).bind Tok.asFloat,
            (vals.get? 2).bind Tok.asFloat, (vals.get? 3).bind Tok.asFloat,
            (vals.get? 4).bind Tok.asFloat, (vals.get? 5).bind Tok.asFloat with
      | some a11, some _a12, some a21, some _a22, some dx, some dy =>
        (parse_xf rest).map
          (fun entries => (degrees (atan2 (a21 : ℝ) (a11 : ℝ)), dx, dy) :: entries)
      | _, _, _, _, _, _ => Except.error PyExn.valueError

/-- statistics.median: sort; middle element for odd length, mean of the two
middle elements for even length.  (On the empty list Python raises
StatisticsError; every call site guards against that, and the model returns
0 there.) -/
def median {α : Type} [LinearOrderedField α] (xs : List α) : α :=
  let s := List.insertionSort (fun a b => a ≤ b) xs
  if xs.length % 2 = 1 then s.getD (xs.length / 2) 0
  else (s.getD (xs.length / 2 - 1) 0 + s.getD (xs.length / 2) 0) / 2

/-- The fatal `sys.exit` messages of main, as structured data (each carries
exactly the values interpolated into the printed message). -/
inductive ExitMsg where
  | noCommon
  | noneWithinCutoff (cutoff : ℚ)
  | emptyXf
  deriving DecidableEq

/-- `sorted(set(d1) & set(d2))` (source line 105). -/
def sortedCommon (d1 d2 : AlnDict) : List ℤ :=
  List.insertionSort (fun a b => a ≤ b)
    (((d1.map Prod.fst).filter (fun k => hasKey d2 k)).dedup)

/-- `d[sec]` on a key known to be present (the default is never used at the
call sites, which iterate over common keys). -/
def alnRec (d : AlnDict) (k : ℤ) : AlnRec := (alookup d k).getD (0, 0, 0, 0)

/-- The accumulation loop of .aln mode (source lines 108-115): for each
common section, read (rot1, tx1, ty1, tilt1) from the first dict and
(rot2, tx2, ty2, tilt2) from the second, and if `abs(tilt1) <= cutoff`
append the three deltas. -/
def alnLoop (d1 d2 : AlnDict) (cutoff : ℚ) : List ℤ → List ℚ × List ℚ × List ℚ
  | [] => ([], [], [])
  | sec :: rest =>
    let r1 := alnRec d1 sec
    let r2 := alnRec d2 sec
    let acc := alnLoop d1 d2 cutoff rest
    if |r1.2.2.2| ≤ cutoff then
      ((r2.1 - r1.1) :: acc.1, (r2.2.1 - r1.2.1) :: acc.2.1, (r2.2.2.1 - r1.2.2.1) :: acc.2.2)
    else acc

/-- .aln mode of main (source lines 105-120): fatal if no common sections;
fatal (naming the cutoff) if no common section passes the tilt filter; else
the three per-axis medians. -/
def alnEstimate (d1 d2 : AlnDict) (cutoff : ℚ) : Except ExitMsg (ℚ × ℚ × ℚ) :=
  let secs := sortedCommon d1 d2
  if secs = [] then Except.error ExitMsg.noCommon
  else
    let ds := alnLoop d1 d2 cutoff secs
    if ds.1 = [] then Except.error (ExitMsg.noneWithinCutoff cutoff)
    else Except.ok (median ds.1, median ds.2.1, median ds.2.2)

/-- .xf mode of main (source lines 124-137): fatal if either parsed list is
empty; warn (non-fatally, flag returned) if the lengths differ; positional
deltas over the first `min` entries; per-axis medians. -/
noncomputable def xfEstimate (xf1 xf2 : List XfEntry) :
    Except ExitMsg (Bool × ℝ × ℚ × ℚ) :=
  let n1 := xf1.length
  let n2 := xf2.length
  if n1 = 0 ∨ n2 = 0 then Except.error ExitMsg.emptyXf
  else
    let n := min n1 n2
    let warned := decide (n1 ≠ n2)
    let drots := (List.range n).map
      (fun i => (xf2.getD i (0, 0, 0)).1 - (xf1.getD i (0, 0, 0)).1)
    let dtxs := (List.range n).map
      (fun i => (xf2.getD i (0, 0, 0)).2.1 - (xf1.getD i (0, 0, 0)).2.1)
    let dtys := (List.range n).map
      (fun i => (xf2.getD i (0, 0, 0)).2.2 - (xf1.getD i (0, 0, 0)).2.2)
    Except.ok (warned, median drots, median dtxs, median dtys)

/-- Decimal digits of a natural number, fuel-indexed so the definition is
structural (`natStr` supplies ample fuel). -/
def natDigitsAux : ℕ → ℕ → List Char
  | 0, _ => []
  | fuel + 1, n =>
    if n < 10 then [Nat.digitChar n]
    else natDigitsAux fuel (n / 10) ++ [Nat.digitChar (n % 10)]

/-- Decimal rendering of a natural number. -/
def natStr (n : ℕ) : String := String.mk (natDigitsAux (n + 1) n)

/-- The six digits after the decimal point of a `%.6f` rendering, given the
fractional numerator (`0 ≤ fp < 10^6`), most significant first. -/
def fracDigits (fp : ℕ) : String :=
  String.mk ((List.range 6).map (fun i => Nat.digitChar (fp / 10 ^ (5 - i) % 10)))

/-- Python `f"{x: .6f}"`: leading space for non-negative values, '-' for
negative ones, integer part, '.', and exactly six fractional digits,
rounding to the nearest multiple of 10^-6.  (Ties and the binary nature of
Python floats are idealized by real-number rounding; no call site here sits
on a tie.) -/
noncomputable def fmtF (x : ℝ) : String :=
  let n : ℤ := round (|x| * 1000000)
  (if 0 ≤ x then " " else "-") ++ natStr (n / 1000000).toNat ++ "." ++
    fracDigits (n % 1000000).toNat

/-- build_transform (source lines 73-83): rotation about Z by dR degrees,
translation (dX, dY), Z sign from flip_z; three formatted lines joined by
newlines, plus a trailing newline.  The zero entries of rows 1-2 are the
literal "  0.000000 " and row 3 starts with the literal "0.000000"
(no leading space), exactly as in the f-strings of the source. -/
noncomputable def build_transform (dR dX dY : ℝ) (flip_z : Bool) : String :=
  let theta := radians dR
  let c := Real.cos theta
  let s := Real.sin theta
  let zsign : ℝ := if flip_z then -1 else 1
  (fmtF c ++ " " ++ fmtF (-s) ++ "  0.000000 " ++ fmtF dX) ++ "\n" ++
  (fmtF s ++ " " ++ fmtF c ++ "  0.000000 " ++ fmtF dY) ++ "\n" ++
  ("0.000000  0.000000 " ++ fmtF zsign ++ "  0.000000") ++ "\n"

/-- The 3x4 matrix the claims say build_transform produces (row-major):
[[c, -s, 0, dX], [s, c, 0, dY], [0, 0, zsign, 0]] with c = cos(radians dR),
s = sin(radians dR), zsign = -1 iff flip_z. -/
noncomputable def buildMatrix (dR dX dY : ℝ) (flip_z : Bool) : List (List ℝ) :=
  let c := Real.cos (radians dR)
  let s := Real.sin (radians dR)
  let zsign : ℝ := if flip_z then -1 else 1
  [[c, -s, 0, dX], [s, c, 0, dY], [0, 0, zsign, 0]]

/-- Entry (i, j) of a matrix given as rows. -/
def ent (M : List (List ℝ)) (i j : ℕ) : ℝ := (M.getD i []).getD j 0

/-- The string build_transform actually builds, expressed over the entries
of a matrix: rows 1-2 render columns 0, 1, 3 with fmtF around the literal
zero column, row 3 renders only the z column, between literal zeros. -/
noncomputable def matrixLines (M : List (List ℝ)) : String :=
  (fmtF (ent M 0 0) ++ " " ++ fmtF (ent M 0 1) ++ "  0.000000 " ++ fmtF (ent M 0 3)) ++ "\n" ++
  (fmtF (ent M 1 0) ++ " " ++ fmtF (ent M 1 1) ++ "  0.000000 " ++ fmtF (ent M 1 3)) ++ "\n" ++
  ("0.000000  0.000000 " ++ fmtF (ent M 2 2) ++ "  0.000000") ++ "\n"

/-- Join strings with a separator (abstract "fields space-separated /
rows newline-separated" of the spec). -/
def joinSep (sep : String) : List String → String
  | [] => ""
  | [x] => x
  | x :: xs => x ++ sep ++ joinSep sep xs

/-- The serialization the spec describes: every one of the twelve values
rendered with fmtF (so with its own leading space when non-negative),
fields joined by single spaces, rows joined by newlines, trailing
newline. -/
noncomputable def serializeAligned (M : List (List ℝ)) : String :=
  joinSep "\n" (M.map (fun row => joinSep " " (row.map fmtF))) ++ "\n"

/-- The post-argparse inputs of main.  Each of the four path arguments is
modelled by the content (list of lines) of the named file, `none` when the
flag was not given.  argparse guarantees exactly one of {aln1, xf1} and
exactly one of {aln2, xf2}; that constraint is stated as a hypothesis where
it matters. -/
structure Args where
  aln1 : Option (List Line)
  xf1 : Option (List Line)
  aln2 : Option (List Line)
  xf2 : Option (List Line)
  tiltCutoff : ℚ
  flipZ : Bool

/-- Outcome of a run: `ok written warned` (the output file holds `written`;
`warned` records the non-fatal length-mismatch warning), `exit msg`
(sys.exit: status 1, message printed, no output file), or `exn` (uncaught
exception, no output file). -/
inductive RunResult where
  | ok (written : String) (warned : Bool)
  | exit (msg : ExitMsg)
  | exn (e : PyExn)

/-- main after argument parsing (source lines 101-145).  `if args.aln1 and
args.aln2` selects .aln mode; anything else falls into the .xf branch,
where `open(None)` (a missing xf path) raises TypeError before or after
parse_xf of the present file.  The output file is written only on the ok
path. -/
noncomputable def runMain (a : Args) : RunResult :=
  match a.aln1, a.aln2 with
  | some f1, some f2 =>
    match alnEstimate (parse_aln f1) (parse_aln f2) a.tiltCutoff with
    | Except.error m => RunResult.exit m
    | Except.ok (dR, dX, dY) =>
      RunResult.ok (build_transform (dR : ℝ) (dX : ℝ) (dY : ℝ) a.flipZ) false
  | _, _ =>
    match a.xf1 with
    | none => RunResult.exn PyExn.typeError
    | some g1 =>
      match parse_xf g1 with
      | Except.error e => RunResult.exn e
      | Except.ok l1 =>
        match a.xf2 with
        | none => RunResult.exn PyExn.typeError
        | some g2 =>
          match parse_xf g2 with
          | Except.error e => RunResult.exn e
          | Except.ok l2 =>
            match xfEstimate l1 l2 with
            | Except.error m => RunResult.exit m
            | Except.ok (warned, dR, dX, dY) =>
              RunResult.ok (build_transform dR (dX : ℝ) (dY : ℝ) a.flipZ) warned

/-- The records of the well-formed data lines of a file, in file order. -/
def recordsOf (lines : List Line) : List (ℤ × AlnRec) := lines.filterMap alnRecord

/-- A line parse_aln consumes without breaking: blank, comment, or a
well-formed 5-field data line. -/
def lineOk : Line → Bool
  | Line.data parts => (alnRecord (Line.data parts)).isSome
  | _ => true

/-- A line parse_xf consumes without raising: blank, comment, short data
line, or a data line whose first six fields all parse as floats. -/
def xfLineOk : Line → Bool
  | Line.data vals =>
    decide (vals.length < 6) ||
      (((vals.get? 0).bind Tok.asFloat).isSome && ((vals.get? 1).bind Tok.asFloat).isSome &&
       ((vals.get? 2).bind Tok.asFloat).isSome && ((vals.get? 3).bind Tok.asFloat).isSome &&
       ((vals.get? 4).bind Tok.asFloat).isSome && ((vals.get? 5).bind Tok.asFloat).isSome)
  | _ => true

/-- A line parse_xf skips: blank, comment, or fewer than six fields. -/
def xfSkippable : Line → Bool
  | Line.data vals => decide (vals.length < 6)
  | _ => true

/-- The common section indices (ascending) whose first-file tilt passes the
cutoff — the set the claims say the .aln estimate is the median over. -/
def commonFiltered (d1 d2 : AlnDict) (cutoff : ℚ) : List ℤ :=
  (sortedCommon d1 d2).filter (fun s => decide (|(alnRec d1 s).2.2.2| ≤ cutoff))

/-- Forget the tilt component of a dict entry (used to say two dicts agree
except possibly on tilts). -/
def stripTilt (p : ℤ × AlnRec) : ℤ × (ℚ × ℚ × ℚ) :=
  (p.1, (p.2.1, p.2.2.1, p.2.2.2.1))

/-- Forget the tilt component of a record value. -/
def stripTiltVal (r : AlnRec) : ℚ × ℚ × ℚ := (r.1, r.2.1, r.2.2.1)

/-- A data line at which parse_aln breaks. -/
def alnMalformed : Line → Bool
  | Line.data parts => (alnRecord (Line.data parts)).isNone
  | _ => false

/-- Concrete example dicts used by witnesses. -/
def exD1 : AlnDict := [(1, (0, 0, 0, 1)), (2, (1, 2, 3, 10))]

/-- Second example dict. -/
def exD2 : AlnDict := [(1, (5, 6, 7, 99)), (2, (4, 4, 4, 0))]

/-- exD2 with both tilt values changed and nothing else. -/
def exD2t : AlnDict := [(1, (5, 6, 7, 0)), (2, (4, 4, 4, 50))]

/-- Example well-formed .aln lines and a short (3-field) line. -/
def exAln1 : Line := Line.data [intTok 0, intTok 1, intTok 2, intTok 3, intTok 0]

/-- Second example .aln line. -/
def exAln2 : Line := Line.data [intTok 1, intTok 4, intTok 5, intTok 6, intTok 2]

/-- Third example .aln line. -/
def exAln3 : Line := Line.data [intTok 2, intTok 0, intTok 0, intTok 0, intTok 0]

/-- A 3-field (malformed for .aln) list of fields. -/
def exShortToks : List Tok := [intTok 7, intTok 8, intTok 9]

/-- Example well-formed .xf line "1 0 0 1 10 20". -/
def exXf1 : Line := Line.data [intTok 1, intTok 0, intTok 0, intTok 1, intTok 10, intTok 20]

/-- A 6-field .xf line whose third field is not a float. -/
def exBadXf : List Tok := [intTok 1, intTok 0, badTok, intTok 1, intTok 10, intTok 20]


/-- Example singleton parsed .xf sequences for witnesses. -/
noncomputable def exXfL1 : List XfEntry := [(0, 1, 2)]

/-- Second example parsed .xf sequence. -/
noncomputable def exXfL2 : List XfEntry := [(0, 4, 6)]

end T2T

namespace T2T

/-- The loop of .aln mode accumulates, per axis, exactly the deltas of the
sections passing the first-file tilt filter, in iteration order. -/
theorem alnLoop_eq (d1 d2 : AlnDict) (c : ℚ) (secs : List ℤ) :
    alnLoop d1 d2 c secs =
      (((secs.filter (fun s => decide (|(alnRec d1 s).2.2.2| ≤ c))).map
          (fun s => (alnRec d2 s).1 - (alnRec d1 s).1)),
       ((secs.filter (fun s => decide (|(alnRec d1 s).2.2.2| ≤ c))).map
          (fun s => (alnRec d2 s).2.1 - (alnRec d1 s).2.1)),
       ((secs.filter (fun s => decide (|(alnRec d1 s).2.2.2| ≤ c))).map
          (fun s => (alnRec d2 s).2.2.1 - (alnRec d1 s).2.2.1))) := by
  induction secs with
  | nil => rfl
  | cons sec rest ih =>
    by_cases h : |(alnRec d1 sec).2.2.2| ≤ c
    · simp [alnLoop, ih, List.filter_cons, h]
    · simp [alnLoop, ih, List.filter_cons, h]

/-- Looking a key up in a dict whose values have been transformed
entrywise. -/
theorem alookup_map_val {β : Type} (f : AlnRec → β) (d : AlnDict) (k : ℤ) :
    alookup (d.map (fun p => (p.1, f p.2))) k = (alookup d k).map f := by
  induction d with
  | nil => rfl
  | cons p rest ih =>
    by_cases h : k = p.1
    · simp [alookup, h]
    · simp [alookup, h, ih]


/-- Components other than the tilt of a looked-up record depend only on the
tilt-stripped dict. -/
theorem alnRec_strip_eq {d2s d2 : AlnDict}
    (htilt : d2s.map stripTilt = d2.map stripTilt) (s : ℤ) :
    stripTiltVal (alnRec d2s s) = stripTiltVal (alnRec d2 s) := by
  have h1 := alookup_map_val stripTiltVal d2s s
  have h2 := alookup_map_val stripTiltVal d2 s
  have hst : (fun p : ℤ × AlnRec => (p.1, stripTiltVal p.2)) = stripTilt := rfl
  rw [hst] at h1 h2
  have h : (alookup d2s s).map stripTiltVal = (alookup d2 s).map stripTiltVal := by
    rw [← h1, ← h2, htilt]
  unfold alnRec
  cases ha : alookup d2s s with
  | none =>
    cases hb : alookup d2 s with
    | none => rfl
    | some b => rw [ha, hb] at h; simp at h
  | some a =>
    cases hb : alookup d2 s with
    | none => rw [ha, hb] at h; simp at h
    | some b => rw [ha, hb] at h; simpa using h

/-- The key list of a dict is unchanged by stripping tilts. -/
theorem keys_strip_eq {d2s d2 : AlnDict}
    (htilt : d2s.map stripTilt = d2.map stripTilt) :
    d2s.map Prod.fst = d2.map Prod.fst := by
  have h := congrArg (List.map Prod.fst) htilt
  simpa [List.map_map, Function.comp] using h

/-- When some common section passes the filter, the .aln estimate is the
triple of per-axis medians over the filtered common sections. -/
theorem alnEstimate_eq_ok (d1 d2 : AlnDict) (c : ℚ)
    (hne : commonFiltered d1 d2 c ≠ []) :
    alnEstimate d1 d2 c =
      Except.ok
        (median ((commonFiltered d1 d2 c).map (fun s => (alnRec d2 s).1 - (alnRec d1 s).1)),
         median ((commonFiltered d1 d2 c).map (fun s => (alnRec d2 s).2.1 - (alnRec d1 s).2.1)),
         median ((commonFiltered d1 d2 c).map (fun s => (alnRec d2 s).2.2.1 - (alnRec d1 s).2.2.1))) := by
  have hflt : ¬ ((sortedCommon d1 d2).filter
      (fun s => decide (|(alnRec d1 s).2.2.2| ≤ c)) = []) := by
    simpa [commonFiltered] using hne
  have hsecs : ¬ (sortedCommon d1 d2 = []) := by
    intro h
    exact hflt (by rw [h]; rfl)
  simp only [alnEstimate, alnLoop_eq]
  have hflt2 : ¬ (List.map (fun s => (alnRec d2 s).1 - (alnRec d1 s).1)
      ((sortedCommon d1 d2).filter (fun s => decide (|(alnRec d1 s).2.2.2| ≤ c))) = []) := by
    simpa [List.map_eq_nil_iff] using hflt
  rw [if_neg hsecs, if_neg hflt2]
  simp [commonFiltered]

/-- C1: in .aln mode, on two parsed mappings with at least one common key
passing the first-file tilt cutoff, the estimate is exactly the per-axis
median of (rot2-rot1, tx2-tx1, ty2-ty1) over the common keys with
abs(tilt1) <= cutoff; and the tilt stored in the second mapping never
influences the result. -/
theorem c1_aln_estimate_median (d1 d2 d2s : AlnDict) (c : ℚ)
    (hne : commonFiltered d1 d2 c ≠ [])
    (htilt : d2s.map stripTilt = d2.map stripTilt) :
    alnEstimate d1 d2 c =
      Except.ok
        (median ((commonFiltered d1 d2 c).map (fun s => (alnRec d2 s).1 - (alnRec d1 s).1)),
         median ((commonFiltered d1 d2 c).map (fun s => (alnRec d2 s).2.1 - (alnRec d1 s).2.1)),
         median ((commonFiltered d1 d2 c).map (fun s => (alnRec d2 s).2.2.1 - (alnRec d1 s).2.2.1)))
      ∧ alnEstimate d1 d2s c = alnEstimate d1 d2 c := by
  constructor
  · exact alnEstimate_eq_ok d1 d2 c hne
  · have hhk : ∀ k, hasKey d2s k = hasKey d2 k := by
      intro k
      unfold hasKey
      rw [keys_strip_eq htilt]
    have hsc : sortedCommon d1 d2s = sortedCommon d1 d2 := by
      unfold sortedCommon
      have : (fun k => hasKey d2s k) = (fun k => hasKey d2 k) := funext hhk
      rw [this]
    have hloop : ∀ secs, alnLoop d1 d2s c secs = alnLoop d1 d2 c secs := by
      intro secs
      rw [alnLoop_eq, alnLoop_eq]
      have h1 : ∀ s : ℤ, (alnRec d2s s).1 = (alnRec d2 s).1 := fun s =>
        congrArg (fun t : ℚ × ℚ × ℚ => t.1) (alnRec_strip_eq htilt s)
      have h2 : ∀ s : ℤ, (alnRec d2s s).2.1 = (alnRec d2 s).2.1 := fun s =>
        congrArg (fun t : ℚ × ℚ × ℚ => t.2.1) (alnRec_strip_eq htilt s)
      have h3 : ∀ s : ℤ, (alnRec d2s s).2.2.1 = (alnRec d2 s).2.2.1 := fun s =>
        congrArg (fun t : ℚ × ℚ × ℚ => t.2.2) (alnRec_strip_eq htilt s)
      refine congrArg₂ Prod.mk ?_ (congrArg₂ Prod.mk ?_ ?_)
      · exact List.map_congr_left (fun s _ => by rw [h1 s])
      · exact List.map_congr_left (fun s _ => by rw [h2 s])
      · exact List.map_congr_left (fun s _ => by rw [h3 s])
    simp only [alnEstimate]
    rw [hsc, hloop]

/-- Witness for C1 at concrete inputs. -/
theorem c1_aln_estimate_median_witness :
    commonFiltered exD1 exD2 5 ≠ [] ∧
    exD2t.map stripTilt = exD2.map stripTilt ∧
    (alnEstimate exD1 exD2 5 =
      Except.ok
        (median ((commonFiltered exD1 exD2 5).map
            (fun s => (alnRec exD2 s).1 - (alnRec exD1 s).1)),
         median ((commonFiltered exD1 exD2 5).map
            (fun s => (alnRec exD2 s).2.1 - (alnRec exD1 s).2.1)),
         median ((commonFiltered exD1 exD2 5).map
            (fun s => (alnRec exD2 s).2.2.1 - (alnRec exD1 s).2.2.1)))
      ∧ alnEstimate exD1 exD2t 5 = alnEstimate exD1 exD2 5) :=
  ⟨by decide, by decide, c1_aln_estimate_median exD1 exD2 exD2t 5 (by decide) (by decide)⟩

/-- parse_aln over a prefix of consumable lines equals a fold of the dict
inserts of their records. -/
theorem parseAlnGo_records :
    ∀ lines : List Line, (∀ l ∈ lines, lineOk l = true) →
      ∀ d, parseAlnGo lines d =
        (recordsOf lines).foldl (fun d r => dictInsert d r.1 r.2) d := by
  intro lines
  induction lines with
  | nil => intro _ d; rfl
  | cons l ls ih =>
    intro h d
    have hls : ∀ x ∈ ls, lineOk x = true := fun x hx => h x (List.mem_cons_of_mem _ hx)
    cases l with
    | blank =>
      simp only [parseAlnGo, recordsOf, List.filterMap_cons]
      exact ih hls d
    | comment =>
      simp only [parseAlnGo, recordsOf, List.filterMap_cons]
      exact ih hls d
    | data parts =>
      have hsome : (alnRecord (Line.data parts)).isSome := h _ (List.mem_cons_self _ _)
      obtain ⟨p, hp⟩ := Option.isSome_iff_exists.mp hsome
      obtain ⟨sec, r⟩ := p
      simp only [parseAlnGo, recordsOf, List.filterMap_cons, hp, List.foldl_cons]
      exact ih hls (dictInsert d sec r)

/-- parse_aln stops dead at a breaking line: nothing at or after it is
recorded. -/
theorem parseAlnGo_break (bad : Line) (rest : List Line)
    (hbad : alnMalformed bad = true) :
    ∀ pre : List Line, (∀ l ∈ pre, lineOk l = true) →
      ∀ d, parseAlnGo (pre ++ bad :: rest) d = parseAlnGo pre d := by
  intro pre
  induction pre with
  | nil =>
    intro _ d
    cases bad with
    | blank => simp [alnMalformed] at hbad
    | comment => simp [alnMalformed] at hbad
    | data parts =>
      have hnone : alnRecord (Line.data parts) = none := by
        simpa [alnMalformed, Option.isNone_iff_eq_none] using hbad
      simp [parseAlnGo, hnone]
  | cons l ls ih =>
    intro h d
    have hls : ∀ x ∈ ls, lineOk x = true := fun x hx => h x (List.mem_cons_of_mem _ hx)
    cases l with
    | blank =>
      simp only [List.cons_append, parseAlnGo]
      exact ih hls d
    | comment =>
      simp only [List.cons_append, parseAlnGo]
      exact ih hls d
    | data parts =>
      have hsome : (alnRecord (Line.data parts)).isSome := h _ (List.mem_cons_self _ _)
      obtain ⟨p, hp⟩ := Option.isSome_iff_exists.mp hsome
      obtain ⟨sec, r⟩ := p
      simp only [List.cons_append, parseAlnGo, hp]
      exact ih hls (dictInsert d sec r)

/-- A data line with fewer than 5 fields, a non-integer field 0, or a
non-float among fields 1-4 yields no record. -/
theorem alnRecord_malformed (parts : List Tok)
    (hbad : parts.length < 5 ∨ (parts.get? 0).bind Tok.asInt = none ∨
      ∃ i, 1 ≤ i ∧ i ≤ 4 ∧ (parts.get? i).bind Tok.asFloat = none) :
    alnRecord (Line.data parts) = none := by
  by_cases hl : parts.length < 5
  · simp [alnRecord, hl]
  · cases c0 : (parts.get? 0).bind Tok.asInt with
    | none => simp only [alnRecord]; rw [if_neg hl, c0]
    | some v0 =>
      cases c1 : (parts.get? 1).bind Tok.asFloat with
      | none => simp only [alnRecord]; rw [if_neg hl, c0, c1]
      | some v1 =>
        cases c2 : (parts.get? 2).bind Tok.asFloat with
        | none => simp only [alnRecord]; rw [if_neg hl, c0, c1, c2]
        | some v2 =>
          cases c3 : (parts.get? 3).bind Tok.asFloat with
          | none => simp only [alnRecord]; rw [if_neg hl, c0, c1, c2, c3]
          | some v3 =>
            cases c4 : (parts.get? 4).bind Tok.asFloat with
            | none => simp only [alnRecord]; rw [if_neg hl, c0, c1, c2, c3, c4]
            | some v4 =>
              exfalso
              rcases hbad with h | h | ⟨i, hi1, hi4, h⟩
              · exact hl h
              · rw [c0] at h; exact Option.noConfusion h
              · interval_cases i
                · rw [c1] at h; exact Option.noConfusion h
                · rw [c2] at h; exact Option.noConfusion h
                · rw [c3] at h; exact Option.noConfusion h
                · rw [c4] at h; exact Option.noConfusion h

/-- C4: parse_aln stops at the first malformed non-blank non-comment line
(short line, non-integer field 0, or non-float among fields 1-4): the
result holds exactly the records of the well-formed lines before it and
nothing from it or after it. -/
theorem c4_parse_aln_early_termination (pre : List Line) (parts : List Tok) (rest : List Line)
    (hpre : ∀ l ∈ pre, lineOk l = true)
    (hbad : parts.length < 5 ∨ (parts.get? 0).bind Tok.asInt = none ∨
      ∃ i, 1 ≤ i ∧ i ≤ 4 ∧ (parts.get? i).bind Tok.asFloat = none) :
    parse_aln (pre ++ Line.data parts :: rest) = parse_aln pre ∧
      parse_aln pre = (recordsOf pre).foldl (fun d r => dictInsert d r.1 r.2) [] := by
  have hnone := alnRecord_malformed parts hbad
  constructor
  · exact parseAlnGo_break (Line.data parts) rest
      (by simp [alnMalformed, hnone]) pre hpre []
  · exact parseAlnGo_records pre hpre []

/-- Witness for C4 at a concrete file: two good lines, then a 3-field line,
then another good line; only the first two lines are retained. -/
theorem c4_parse_aln_early_termination_witness :
    (∀ l ∈ [exAln1, exAln2], lineOk l = true) ∧
    (exShortToks.length < 5 ∨ (exShortToks.get? 0).bind Tok.asInt = none ∨
      ∃ i, 1 ≤ i ∧ i ≤ 4 ∧ (exShortToks.get? i).bind Tok.asFloat = none) ∧
    (parse_aln ([exAln1, exAln2] ++ Line.data exShortToks :: [exAln3]) =
        parse_aln [exAln1, exAln2] ∧
      parse_aln [exAln1, exAln2] =
        (recordsOf [exAln1, exAln2]).foldl (fun d r => dictInsert d r.1 r.2) []) :=
  ⟨by decide, Or.inl (by decide),
    c4_parse_aln_early_termination [exAln1, exAln2] exShortToks [exAln3]
      (by decide) (Or.inl (by decide))⟩


/-- atan2(0, 1) = 0. -/
theorem atan2_zero_one : atan2 0 1 = 0 := by
  unfold atan2
  rw [Complex.ofReal_zero, zero_mul, add_zero, Complex.ofReal_one]
  exact Complex.arg_one

/-- degrees(0) = 0. -/
theorem degrees_zero : degrees 0 = 0 := by
  unfold degrees
  rw [zero_mul, zero_div]

/-- parse_xf of a cons depends on the tail only through parse_xf of the
tail. -/
theorem parse_xf_cons_congr (l : Line) {r1 r2 : List Line}
    (h : parse_xf r1 = parse_xf r2) : parse_xf (l :: r1) = parse_xf (l :: r2) := by
  cases l with
  | blank => simpa [parse_xf] using h
  | comment => simpa [parse_xf] using h
  | data vals =>
    by_cases hv : vals.length < 6
    · simpa [parse_xf, hv] using h
    · simp only [parse_xf, if_neg hv]
      rw [h]

/-- C5: parse_xf skips blank lines, comment lines, and lines with fewer
than 6 fields, continuing with the rest of the file; and the line
"1 0 0 1 10 20" parses to the entry (0.0, 10.0, 20.0). -/
theorem c5_parse_xf_skip (pre : List Line) (skip : Line) (post : List Line)
    (hskip : xfSkippable skip = true) :
    parse_xf (pre ++ skip :: post) = parse_xf (pre ++ post) ∧
    parse_xf [Line.data [intTok 1, intTok 0, intTok 0, intTok 1, intTok 10, intTok 20]] =
      Except.ok [((0 : ℝ), (10 : ℚ), (20 : ℚ))] := by
  constructor
  · induction pre with
    | nil =>
      cases skip with
      | blank => simp [parse_xf]
      | comment => simp [parse_xf]
      | data vals =>
        have hv : vals.length < 6 := by simpa [xfSkippable] using hskip
        simp [parse_xf, hv]
    | cons l pre ih => exact parse_xf_cons_congr l ih
  · have h6 : ¬ (([intTok 1, intTok 0, intTok 0, intTok 1, intTok 10, intTok 20] :
        List Tok).length < 6) := by decide
    simp only [parse_xf, if_neg h6]
    norm_num [intTok, atan2_zero_one, degrees_zero, Except.map]

/-- Witness for C5 at a concrete skipped line. -/
theorem c5_parse_xf_skip_witness :
    xfSkippable Line.blank = true ∧
    (parse_xf ([] ++ Line.blank :: [exXf1]) = parse_xf ([] ++ [exXf1]) ∧
      parse_xf [Line.data [intTok 1, intTok 0, intTok 0, intTok 1, intTok 10, intTok 20]] =
        Except.ok [((0 : ℝ), (10 : ℚ), (20 : ℚ))]) :=
  ⟨rfl, c5_parse_xf_skip [] Line.blank [exXf1] rfl⟩

/-- A 6-or-more-field line with a non-float among the first six fields
makes parse_xf raise. -/
theorem parse_xf_raises (vals : List Tok) (rest : List Line)
    (hlen : 6 ≤ vals.length)
    (hbad : ∃ i, i < 6 ∧ (vals.get? i).bind Tok.asFloat = none) :
    parse_xf (Line.data vals :: rest) = Except.error PyExn.valueError := by
  have hv : ¬ (vals.length < 6) := not_lt.mpr hlen
  simp only [parse_xf, if_neg hv]
  cases c0 : (vals.get? 0).bind Tok.asFloat with
  | none => rfl
  | some v0 =>
    cases c1 : (vals.get? 1).bind Tok.asFloat with
    | none => rfl
    | some v1 =>
      cases c2 : (vals.get? 2).bind Tok.asFloat with
      | none => rfl
      | some v2 =>
        cases c3 : (vals.get? 3).bind Tok.asFloat with
        | none => rfl
        | some v3 =>
          cases c4 : (vals.get? 4).bind Tok.asFloat with
          | none => rfl
          | some v4 =>
            cases c5 : (vals.get? 5).bind Tok.asFloat with
            | none => rfl
            | some v5 =>
              exfalso
              obtain ⟨i, hi, h⟩ := hbad
              interval_cases i
              · rw [c0] at h; exact Option.noConfusion h
              · rw [c1] at h; exact Option.noConfusion h
              · rw [c2] at h; exact Option.noConfusion h
              · rw [c3] at h; exact Option.noConfusion h
              · rw [c4] at h; exact Option.noConfusion h
              · rw [c5] at h; exact Option.noConfusion h

/-- C10: a line with at least 6 fields one of whose first six fields is
not a float makes parse_xf raise an uncaught ValueError, aborting the
whole run (neither skipped nor a user-facing sys.exit). -/
theorem c10_parse_xf_value_error (pre : List Line) (vals : List Tok) (rest : List Line)
    (f2 : Option (List Line)) (c : ℚ) (fz : Bool)
    (hpre : ∀ l ∈ pre, xfLineOk l = true)
    (hlen : 6 ≤ vals.length)
    (hbad : ∃ i, i < 6 ∧ (vals.get? i).bind Tok.asFloat = none) :
    parse_xf (pre ++ Line.data vals :: rest) = Except.error PyExn.valueError ∧
    runMain ⟨none, some (pre ++ Line.data vals :: rest), none, f2, c, fz⟩ =
      RunResult.exn PyExn.valueError := by
  have h1 : parse_xf (pre ++ Line.data vals :: rest) = Except.error PyExn.valueError := by
    induction pre with
    | nil => exact parse_xf_raises vals rest hlen hbad
    | cons l pre ih =>
      have hls : ∀ x ∈ pre, xfLineOk x = true := fun x hx => hpre x (List.mem_cons_of_mem _ hx)
      have hstep := ih hls
      cases l with
      | blank => simpa [parse_xf] using hstep
      | comment => simpa [parse_xf] using hstep
      | data vals2 =>
        by_cases hv : vals2.length < 6
        · simpa [parse_xf, hv] using hstep
        · have hok : xfLineOk (Line.data vals2) = true := hpre _ (List.mem_cons_self _ _)
          simp only [xfLineOk, Bool.or_eq_true, decide_eq_true_eq, Bool.and_eq_true,
            Option.isSome_iff_exists] at hok
          rcases hok with hlt | ⟨⟨⟨⟨⟨⟨w0, e0⟩, ⟨w1, e1⟩⟩, ⟨w2, e2⟩⟩, ⟨w3, e3⟩⟩, ⟨w4, e4⟩⟩, ⟨w5, e5⟩⟩
          · exact absurd hlt hv
          · simp only [List.cons_append, parse_xf, if_neg hv, e0, e1, e2, e3, e4, e5,
              List.append_eq]
            rw [hstep]
            rfl
  refine ⟨h1, ?_⟩
  simp only [runMain]
  rw [h1]

/-- Witness for C10 at a concrete file with a bad third field. -/
theorem c10_parse_xf_value_error_witness :
    (∀ l ∈ ([] : List Line), xfLineOk l = true) ∧
    6 ≤ exBadXf.length ∧
    (∃ i, i < 6 ∧ (exBadXf.get? i).bind Tok.asFloat = none) ∧
    (parse_xf ([] ++ Line.data exBadXf :: []) = Except.error PyExn.valueError ∧
      runMain ⟨none, some ([] ++ Line.data exBadXf :: []), none, some [exXf1], 5, false⟩ =
        RunResult.exn PyExn.valueError) :=
  ⟨by decide, by decide, ⟨2, by decide, by decide⟩,
    c10_parse_xf_value_error [] exBadXf [] (some [exXf1]) 5 false
      (by decide) (by decide) ⟨2, by decide, by decide⟩⟩


/-- C2: in .xf mode on two non-empty sequences, the estimate is the
per-axis median of the positional differences over the first
min(N1, N2) positions (equivalently: of the two truncated sequences), a
length mismatch sets the warning flag without being an error, and the
median of an even-length list is the average of its two middle values. -/
theorem c2_xf_estimate (xf1 xf2 : List XfEntry) (h1 : xf1 ≠ []) (h2 : xf2 ≠ []) :
    (xfEstimate xf1 xf2 =
      Except.ok (decide (xf1.length ≠ xf2.length),
        median ((List.range (min xf1.length xf2.length)).map
          (fun i => (xf2.getD i (0, 0, 0)).1 - (xf1.getD i (0, 0, 0)).1)),
        median ((List.range (min xf1.length xf2.length)).map
          (fun i => (xf2.getD i (0, 0, 0)).2.1 - (xf1.getD i (0, 0, 0)).2.1)),
        median ((List.range (min xf1.length xf2.length)).map
          (fun i => (xf2.getD i (0, 0, 0)).2.2 - (xf1.getD i (0, 0, 0)).2.2)))) ∧
    (xfEstimate (xf1.take (min xf1.length xf2.length)) (xf2.take (min xf1.length xf2.length)) =
      Except.ok (false,
        median ((List.range (min xf1.length xf2.length)).map
          (fun i => (xf2.getD i (0, 0, 0)).1 - (xf1.getD i (0, 0, 0)).1)),
        median ((List.range (min xf1.length xf2.length)).map
          (fun i => (xf2.getD i (0, 0, 0)).2.1 - (xf1.getD i (0, 0, 0)).2.1)),
        median ((List.range (min xf1.length xf2.length)).map
          (fun i => (xf2.getD i (0, 0, 0)).2.2 - (xf1.getD i (0, 0, 0)).2.2)))) ∧
    (∀ xs : List ℚ, xs.length % 2 = 0 → xs ≠ [] →
      median xs =
        ((List.insertionSort (fun a b => a ≤ b) xs).getD (xs.length / 2 - 1) 0 +
          (List.insertionSort (fun a b => a ≤ b) xs).getD (xs.length / 2) 0) / 2) := by
  have hn1 : xf1.length ≠ 0 := by simpa using h1
  have hn2 : xf2.length ≠ 0 := by simpa using h2
  have hor : ¬ (xf1.length = 0 ∨ xf2.length = 0) := by omega
  have hmin1 : min xf1.length xf2.length ≤ xf1.length := min_le_left _ _
  have hmin2 : min xf1.length xf2.length ≤ xf2.length := min_le_right _ _
  have hl1 : (xf1.take (min xf1.length xf2.length)).length = min xf1.length xf2.length := by
    rw [List.length_take, Nat.min_eq_left hmin1]
  have hl2 : (xf2.take (min xf1.length xf2.length)).length = min xf1.length xf2.length := by
    rw [List.length_take, Nat.min_eq_left hmin2]
  have hgd1 : ∀ β : Type, ∀ l : List β, ∀ d : β, ∀ i, i < min xf1.length xf2.length →
      (l.take (min xf1.length xf2.length)).getD i d = l.getD i d := by
    intro β l d i hi
    simp [List.getD, List.getElem?_take_of_lt hi]
  refine ⟨?_, ?_, ?_⟩
  · simp only [xfEstimate]
    rw [if_neg hor]
  · simp only [xfEstimate]
    rw [hl1, hl2]
    have hn0 : ¬ (min xf1.length xf2.length = 0 ∨ min xf1.length xf2.length = 0) := by omega
    rw [if_neg hn0, Nat.min_self]
    have hw : decide (min xf1.length xf2.length ≠ min xf1.length xf2.length) = false := by
      simp
    rw [hw]
    refine congrArg Except.ok ?_
    refine congrArg₂ Prod.mk rfl (congrArg₂ Prod.mk ?_ (congrArg₂ Prod.mk ?_ ?_)) <;>
      refine congrArg (fun l => median l) (List.map_congr_left (fun i hi => ?_))
    · rw [hgd1 _ xf2 _ i (List.mem_range.mp hi), hgd1 _ xf1 _ i (List.mem_range.mp hi)]
    · rw [hgd1 _ xf2 _ i (List.mem_range.mp hi), hgd1 _ xf1 _ i (List.mem_range.mp hi)]
    · rw [hgd1 _ xf2 _ i (List.mem_range.mp hi), hgd1 _ xf1 _ i (List.mem_range.mp hi)]
  · intro xs heven _
    have hodd : ¬ (xs.length % 2 = 1) := by omega
    simp only [median, if_neg hodd]

/-- Witness for C2 at concrete singleton sequences. -/
theorem c2_xf_estimate_witness :
    exXfL1 ≠ [] ∧ exXfL2 ≠ [] ∧
    ((xfEstimate exXfL1 exXfL2 =
      Except.ok (decide (exXfL1.length ≠ exXfL2.length),
        median ((List.range (min exXfL1.length exXfL2.length)).map
          (fun i => (exXfL2.getD i (0, 0, 0)).1 - (exXfL1.getD i (0, 0, 0)).1)),
        median ((List.range (min exXfL1.length exXfL2.length)).map
          (fun i => (exXfL2.getD i (0, 0, 0)).2.1 - (exXfL1.getD i (0, 0, 0)).2.1)),
        median ((List.range (min exXfL1.length exXfL2.length)).map
          (fun i => (exXfL2.getD i (0, 0, 0)).2.2 - (exXfL1.getD i (0, 0, 0)).2.2)))) ∧
    (xfEstimate (exXfL1.take (min exXfL1.length exXfL2.length))
        (exXfL2.take (min exXfL1.length exXfL2.length)) =
      Except.ok (false,
        median ((List.range (min exXfL1.length exXfL2.length)).map
          (fun i => (exXfL2.getD i (0, 0, 0)).1 - (exXfL1.getD i (0, 0, 0)).1)),
        median ((List.range (min exXfL1.length exXfL2.length)).map
          (fun i => (exXfL2.getD i (0, 0, 0)).2.1 - (exXfL1.getD i (0, 0, 0)).2.1)),
        median ((List.range (min exXfL1.length exXfL2.length)).map
          (fun i => (exXfL2.getD i (0, 0, 0)).2.2 - (exXfL1.getD i (0, 0, 0)).2.2)))) ∧
    (∀ xs : List ℚ, xs.length % 2 = 0 → xs ≠ [] →
      median xs =
        ((List.insertionSort (fun a b => a ≤ b) xs).getD (xs.length / 2 - 1) 0 +
          (List.insertionSort (fun a b => a ≤ b) xs).getD (xs.length / 2) 0) / 2)) :=
  ⟨by simp [exXfL1], by simp [exXfL2],
    c2_xf_estimate exXfL1 exXfL2 (by simp [exXfL1]) (by simp [exXfL2])⟩


/-- C6: every fatal condition (no common .aln sections; no .aln entry
within the tilt cutoff, the message carrying the cutoff value; an empty
parsed .xf sequence) makes the run exit with a user-facing message, and an
exit result never carries a written output. -/
theorem c6_fatal_conditions (f1 f2 g1 g2 : List Line) (l1 l2 : List XfEntry)
    (c : ℚ) (fz : Bool) :
    (sortedCommon (parse_aln f1) (parse_aln f2) = [] →
      runMain ⟨some f1, none, some f2, none, c, fz⟩ = RunResult.exit ExitMsg.noCommon) ∧
    (commonFiltered (parse_aln f1) (parse_aln f2) c = [] →
      sortedCommon (parse_aln f1) (parse_aln f2) ≠ [] →
      runMain ⟨some f1, none, some f2, none, c, fz⟩ =
        RunResult.exit (ExitMsg.noneWithinCutoff c)) ∧
    (parse_xf g1 = Except.ok l1 → parse_xf g2 = Except.ok l2 → (l1 = [] ∨ l2 = []) →
      runMain ⟨none, some g1, none, some g2, c, fz⟩ = RunResult.exit ExitMsg.emptyXf) ∧
    (∀ (m : ExitMsg) (out : String) (w : Bool), RunResult.exit m ≠ RunResult.ok out w) := by
  refine ⟨?_, ?_, ?_, ?_⟩
  · intro h
    have he : alnEstimate (parse_aln f1) (parse_aln f2) c = Except.error ExitMsg.noCommon := by
      simp only [alnEstimate]
      rw [if_pos h]
    simp only [runMain]
    rw [he]
  · intro hcf hsc
    have hfilter : (sortedCommon (parse_aln f1) (parse_aln f2)).filter
        (fun s => decide (|(alnRec (parse_aln f1) s).2.2.2| ≤ c)) = [] := by
      simpa [commonFiltered] using hcf
    have he : alnEstimate (parse_aln f1) (parse_aln f2) c =
        Except.error (ExitMsg.noneWithinCutoff c) := by
      simp only [alnEstimate, alnLoop_eq]
      rw [if_neg hsc, hfilter]
      simp
    simp only [runMain]
    rw [he]
  · intro hp1 hp2 hz
    have hlen : l1.length = 0 ∨ l2.length = 0 := by
      rcases hz with h | h <;> simp [h]
    have he : xfEstimate l1 l2 = Except.error ExitMsg.emptyXf := by
      simp only [xfEstimate]
      rw [if_pos hlen]
    simp only [runMain, hp1, hp2, he]
  · intro m out w h
    exact RunResult.noConfusion h

/-- Witness for C6: disjoint .aln keys; a matching key whose tilt misses
the cutoff; two empty .xf files. -/
theorem c6_fatal_conditions_witness :
    sortedCommon (parse_aln [exAln1]) (parse_aln [exAln3]) = [] ∧
    commonFiltered (parse_aln [exAln2]) (parse_aln [exAln2]) 1 = [] ∧
    sortedCommon (parse_aln [exAln2]) (parse_aln [exAln2]) ≠ [] ∧
    runMain ⟨some [exAln1], none, some [exAln3], none, 5, false⟩ =
      RunResult.exit ExitMsg.noCommon ∧
    runMain ⟨some [exAln2], none, some [exAln2], none, 1, false⟩ =
      RunResult.exit (ExitMsg.noneWithinCutoff 1) ∧
    runMain ⟨none, some [], none, some [], 5, false⟩ = RunResult.exit ExitMsg.emptyXf :=
  ⟨by decide, by decide, by decide,
    (c6_fatal_conditions [exAln1] [exAln3] [] [] [] [] 5 false).1 (by decide),
    (c6_fatal_conditions [exAln2] [exAln2] [] [] [] [] 1 false).2.1 (by decide) (by decide),
    (c6_fatal_conditions [] [] [] [] [] [] 5 false).2.2.1 rfl rfl (Or.inl rfl)⟩

/-- C9 counterexample: a mixed invocation (.aln source, .xf target), valid
for the argument parser, does not produce an estimate: it dies with an
uncaught TypeError (the .xf branch opens the absent xf1 path). -/
theorem c9_counterexample :
    runMain ⟨some [exAln1], none, none, some [exXf1], 5, false⟩ =
      RunResult.exn PyExn.typeError ∧
    ∀ (out : String) (w : Bool),
      runMain ⟨some [exAln1], none, none, some [exXf1], 5, false⟩ ≠
        RunResult.ok out w := by
  have h : runMain ⟨some [exAln1], none, none, some [exXf1], 5, false⟩ =
      RunResult.exn PyExn.typeError := rfl
  refine ⟨h, ?_⟩
  intro out w hok
  exact RunResult.noConfusion (h.symm.trans hok)

/-- C9 amended: mode selection is not per-tomogram: only an invocation
with both .aln paths runs .aln mode; a mixed but argparse-valid invocation
falls into the .xf branch and dies with an uncaught exception (TypeError
from opening the absent xf path, or a ValueError already raised by
parse_xf on the present file). -/
theorem c9_mixed_mode_crashes (a : Args)
    (hg1 : a.aln1.isSome ↔ ¬ a.xf1.isSome)
    (hg2 : a.aln2.isSome ↔ ¬ a.xf2.isSome)
    (hmix : (a.aln1.isSome ∧ a.xf2.isSome) ∨ (a.xf1.isSome ∧ a.aln2.isSome)) :
    ∃ e, runMain a = RunResult.exn e := by
  obtain ⟨aln1, xf1, aln2, xf2, c, fz⟩ := a
  simp only at hg1 hg2 hmix
  rcases hmix with ⟨h1, h2⟩ | ⟨h1, h2⟩
  · obtain ⟨f1, rfl⟩ := Option.isSome_iff_exists.mp h1
    obtain ⟨g2, rfl⟩ := Option.isSome_iff_exists.mp h2
    have hxf1 : xf1 = none := by
      cases xf1 with
      | none => rfl
      | some g1 => simp at hg1
    have haln2 : aln2 = none := by
      cases aln2 with
      | none => rfl
      | some f2 => simp at hg2
    subst hxf1
    subst haln2
    exact ⟨PyExn.typeError, rfl⟩
  · obtain ⟨g1, rfl⟩ := Option.isSome_iff_exists.mp h1
    obtain ⟨f2, rfl⟩ := Option.isSome_iff_exists.mp h2
    have haln1 : aln1 = none := by
      cases aln1 with
      | none => rfl
      | some f1 => simp at hg1
    have hxf2 : xf2 = none := by
      cases xf2 with
      | none => rfl
      | some g2 => simp at hg2
    subst haln1
    subst hxf2
    cases hp : parse_xf g1 with
    | error e =>
      refine ⟨e, ?_⟩
      simp only [runMain]
      rw [hp]
    | ok l1 =>
      refine ⟨PyExn.typeError, ?_⟩
      simp only [runMain]
      rw [hp]

/-- Witness for the amended C9 at a concrete mixed invocation. -/
theorem c9_mixed_mode_crashes_witness :
    ((Args.mk (some [exAln1]) none none (some [exXf1]) 5 false).aln1.isSome ↔
      ¬ (Args.mk (some [exAln1]) none none (some [exXf1]) 5 false).xf1.isSome) ∧
    ((Args.mk (some [exAln1]) none none (some [exXf1]) 5 false).aln2.isSome ↔
      ¬ (Args.mk (some [exAln1]) none none (some [exXf1]) 5 false).xf2.isSome) ∧
    (∃ e, runMain (Args.mk (some [exAln1]) none none (some [exXf1]) 5 false) =
      RunResult.exn e) :=
  ⟨by simp, by simp,
    c9_mixed_mode_crashes (Args.mk (some [exAln1]) none none (some [exXf1]) 5 false)
      (by simp) (by simp) (Or.inl ⟨by simp, by simp⟩)⟩


/-- A lookup misses exactly when the key is absent. -/
theorem alookup_eq_none {β : Type} (d : List (ℤ × β)) (k : ℤ) :
    alookup d k = none ↔ k ∉ d.map Prod.fst := by
  induction d with
  | nil => simp [alookup]
  | cons p rest ih =>
    by_cases h : k = p.1
    · simp [alookup, h]
    · simp [alookup, h, ih]

/-- A found binding is a member. -/
theorem alookup_mem {β : Type} (d : List (ℤ × β)) (k : ℤ) (v : β)
    (h : alookup d k = some v) : (k, v) ∈ d := by
  induction d with
  | nil => simp [alookup] at h
  | cons p rest ih =>
    by_cases hk : k = p.1
    · rw [alookup, if_pos hk] at h
      have hv : v = p.2 := (Option.some.injEq _ _).mp h.symm
      subst hk
      subst hv
      exact List.mem_cons_self _ _
    · rw [alookup, if_neg hk] at h
      exact List.mem_cons_of_mem _ (ih h)

/-- With nodup keys, a member binding is found. -/
theorem alookup_eq_some_of_mem {β : Type} (d : List (ℤ × β)) (k : ℤ) (v : β)
    (hm : (k, v) ∈ d) (hnd : (d.map Prod.fst).Nodup) : alookup d k = some v := by
  induction d with
  | nil => simp at hm
  | cons p rest ih =>
    rcases List.mem_cons.mp hm with he | ht
    · rw [← he]
      simp [alookup]
    · have hk : ¬ (k = p.1) := by
        intro hk
        have hkm : k ∈ rest.map Prod.fst := List.mem_map.mpr ⟨(k, v), ht, rfl⟩
        rw [List.map_cons, List.nodup_cons] at hnd
        exact hnd.1 (hk ▸ hkm)
      rw [alookup, if_neg hk]
      rw [List.map_cons, List.nodup_cons] at hnd
      exact ih ht hnd.2

/-- Permuting an association list with nodup keys does not change any
lookup. -/
theorem alookup_perm {β : Type} {r1 r2 : List (ℤ × β)} (hp : r1.Perm r2)
    (hnd : (r1.map Prod.fst).Nodup) (k : ℤ) : alookup r1 k = alookup r2 k := by
  cases h : alookup r1 k with
  | none =>
    have h1 := (alookup_eq_none r1 k).mp h
    have h2 : k ∉ r2.map Prod.fst := fun hk => h1 ((hp.map Prod.fst).mem_iff.mpr hk)
    exact ((alookup_eq_none r2 k).mpr h2).symm
  | some v =>
    have hm2 : (k, v) ∈ r2 := hp.subset (alookup_mem _ _ _ h)
    have hnd2 : (r2.map Prod.fst).Nodup := ((hp.map Prod.fst).nodup_iff).mp hnd
    exact (alookup_eq_some_of_mem _ _ _ hm2 hnd2).symm

/-- sorted(set(d1) & set(d2)) only depends on the dicts up to
permutation. -/
theorem sortedCommon_perm {r1b r1 r2b r2 : AlnDict}
    (hp1 : r1b.Perm r1) (hp2 : r2b.Perm r2) :
    sortedCommon r1b r2b = sortedCommon r1 r2 := by
  unfold sortedCommon
  have hk : (fun k => hasKey r2b k) = fun k => hasKey r2 k := by
    funext k
    unfold hasKey
    exact decide_eq_decide.mpr (hp2.map Prod.fst).mem_iff
  rw [hk]
  have hperm : ((r1b.map Prod.fst).filter (fun k => hasKey r2 k)).dedup.Perm
      ((r1.map Prod.fst).filter (fun k => hasKey r2 k)).dedup :=
    ((hp1.map Prod.fst).filter _).dedup
  exact List.eq_of_perm_of_sorted
    ((List.perm_insertionSort _ _).trans (hperm.trans (List.perm_insertionSort _ _).symm))
    (List.sorted_insertionSort _ _) (List.sorted_insertionSort _ _)

/-- The .aln loop only sees the dicts through alnRec. -/
theorem alnLoop_congr {d1b d1 d2b d2 : AlnDict} (c : ℚ)
    (h1 : ∀ s : ℤ, alnRec d1b s = alnRec d1 s)
    (h2 : ∀ s : ℤ, alnRec d2b s = alnRec d2 s) (secs : List ℤ) :
    alnLoop d1b d2b c secs = alnLoop d1 d2 c secs := by
  induction secs with
  | nil => rfl
  | cons sec rest ih => simp only [alnLoop, h1, h2, ih]

/-- The .aln estimate only sees the dicts through the common key list and
alnRec. -/
theorem alnEstimate_congr {r1b r1 r2b r2 : AlnDict} (c : ℚ)
    (hsc : sortedCommon r1b r2b = sortedCommon r1 r2)
    (h1 : ∀ s : ℤ, alnRec r1b s = alnRec r1 s)
    (h2 : ∀ s : ℤ, alnRec r2b s = alnRec r2 s) :
    alnEstimate r1b r2b c = alnEstimate r1 r2 c := by
  simp only [alnEstimate, hsc, alnLoop_congr c h1 h2]

/-- Folding dict inserts of records with fresh nodup keys appends them. -/
theorem foldl_dictInsert_fresh :
    ∀ (recs : List (ℤ × AlnRec)) (d : AlnDict),
      (((d ++ recs).map Prod.fst).Nodup) →
      recs.foldl (fun d r => dictInsert d r.1 r.2) d = d ++ recs := by
  intro recs
  induction recs with
  | nil => intro d _; simp
  | cons r rs ih =>
    intro d hnd
    obtain ⟨k, v⟩ := r
    have hkd : k ∉ d.map Prod.fst := by
      have hsplit : (d.map Prod.fst ++ k :: rs.map Prod.fst).Nodup := by simpa using hnd
      intro hk
      exact (List.nodup_append.mp hsplit).2.2 hk (List.mem_cons_self _ _)
    have hins : dictInsert d k v = d ++ [(k, v)] := by
      unfold dictInsert
      rw [if_neg ?hany]
      case hany =>
        intro hany
        rw [List.any_eq_true] at hany
        obtain ⟨p, hpmem, hpk⟩ := hany
        exact hkd (List.mem_map.mpr ⟨p, hpmem, by simpa using hpk⟩)
    rw [List.foldl_cons]
    simp only [hins]
    have hnd2 : (((d ++ [(k, v)]) ++ rs).map Prod.fst).Nodup := by
      simpa [List.append_assoc] using hnd
    rw [ih (d ++ [(k, v)]) hnd2]
    simp

/-- On a fully well-formed file with unique section indices, parse_aln is
just the association list of its records. -/
theorem parse_aln_eq_records (lines : List Line)
    (hok : ∀ l ∈ lines, lineOk l = true)
    (hnd : ((recordsOf lines).map Prod.fst).Nodup) :
    parse_aln lines = recordsOf lines := by
  unfold parse_aln
  rw [parseAlnGo_records lines hok []]
  simpa using foldl_dictInsert_fresh (recordsOf lines) [] (by simpa using hnd)

/-- C3: for well-formed .aln pairs with unique section indices sharing at
least one section within the cutoff, permuting the lines of either input
leaves the estimate unchanged (matching is by key intersection, not
position), and the estimate is indeed produced. -/
theorem c3_aln_permutation_invariant (l1 l1p l2 l2p : List Line) (c : ℚ)
    (hp1 : l1p.Perm l1) (hp2 : l2p.Perm l2)
    (hok1 : ∀ l ∈ l1, lineOk l = true) (hok2 : ∀ l ∈ l2, lineOk l = true)
    (hnd1 : ((recordsOf l1).map Prod.fst).Nodup)
    (hnd2 : ((recordsOf l2).map Prod.fst).Nodup)
    (hshare : commonFiltered (parse_aln l1) (parse_aln l2) c ≠ []) :
    alnEstimate (parse_aln l1p) (parse_aln l2p) c =
      alnEstimate (parse_aln l1) (parse_aln l2) c ∧
    ∃ v, alnEstimate (parse_aln l1) (parse_aln l2) c = Except.ok v := by
  have hok1p : ∀ l ∈ l1p, lineOk l = true := fun l hl => hok1 l (hp1.subset hl)
  have hok2p : ∀ l ∈ l2p, lineOk l = true := fun l hl => hok2 l (hp2.subset hl)
  have hrp1 : (recordsOf l1p).Perm (recordsOf l1) := hp1.filterMap _
  have hrp2 : (recordsOf l2p).Perm (recordsOf l2) := hp2.filterMap _
  have hnd1p : ((recordsOf l1p).map Prod.fst).Nodup :=
    ((hrp1.map Prod.fst).nodup_iff).mpr hnd1
  have hnd2p : ((recordsOf l2p).map Prod.fst).Nodup :=
    ((hrp2.map Prod.fst).nodup_iff).mpr hnd2
  refine ⟨?_, ⟨_, alnEstimate_eq_ok _ _ c hshare⟩⟩
  rw [parse_aln_eq_records l1 hok1 hnd1, parse_aln_eq_records l2 hok2 hnd2,
    parse_aln_eq_records l1p hok1p hnd1p, parse_aln_eq_records l2p hok2p hnd2p]
  exact alnEstimate_congr c (sortedCommon_perm hrp1 hrp2)
    (fun s => by unfold alnRec; rw [alookup_perm hrp1 hnd1p s])
    (fun s => by unfold alnRec; rw [alookup_perm hrp2 hnd2p s])

/-- Witness for C3: the same two-line files in swapped line order. -/
theorem c3_aln_permutation_invariant_witness :
    ([exAln2, exAln1].Perm [exAln1, exAln2]) ∧
    (∀ l ∈ [exAln1, exAln2], lineOk l = true) ∧
    ((recordsOf [exAln1, exAln2]).map Prod.fst).Nodup ∧
    commonFiltered (parse_aln [exAln1, exAln2]) (parse_aln [exAln1, exAln2]) 5 ≠ [] ∧
    (alnEstimate (parse_aln [exAln2, exAln1]) (parse_aln [exAln1, exAln2]) 5 =
        alnEstimate (parse_aln [exAln1, exAln2]) (parse_aln [exAln1, exAln2]) 5 ∧
      ∃ v, alnEstimate (parse_aln [exAln1, exAln2]) (parse_aln [exAln1, exAln2]) 5 =
        Except.ok v) :=
  ⟨by decide, by decide, by decide, by decide,
    c3_aln_permutation_invariant [exAln1, exAln2] [exAln2, exAln1]
      [exAln1, exAln2] [exAln1, exAln2] 5
      (by decide) (by decide) (by decide) (by decide) (by decide) (by decide) (by decide)⟩


/-- Two strings with the same character data are equal. -/
theorem str_ext {s t : String} (h : s.data = t.data) : s = t := by
  cases s
  cases t
  exact congrArg String.mk h

/-- Every character produced by natDigitsAux is a digit character. -/
theorem natDigitsAux_digits :
    ∀ (fuel n : ℕ), ∀ c ∈ natDigitsAux fuel n, ∃ d, d < 10 ∧ c = Nat.digitChar d := by
  intro fuel
  induction fuel with
  | zero => intro n c hc; simp [natDigitsAux] at hc
  | succ fuel ih =>
    intro n c hc
    by_cases h : n < 10
    · simp only [natDigitsAux, if_pos h, List.mem_singleton] at hc
      exact ⟨n, h, hc⟩
    · simp only [natDigitsAux, if_neg h, List.mem_append, List.mem_singleton] at hc
      rcases hc with hc | hc
      · exact ih _ c hc
      · exact ⟨n % 10, Nat.mod_lt _ (by norm_num), hc⟩

/-- Digit characters are never a newline. -/
theorem digitChar_ne_newline : ∀ d, d < 10 → Nat.digitChar d ≠ (Char.ofNat 10) := by
  decide

/-- Digit characters of digits are decimal digits. -/
theorem digitChar_isDigit : ∀ d, d < 10 → (Nat.digitChar d).isDigit = true := by
  decide

/-- The fractional field always has exactly six characters. -/
theorem fracDigits_length (fp : ℕ) : (fracDigits fp).length = 6 := by
  simp [fracDigits, String.length]

/-- Every character of the fractional field is a decimal digit. -/
theorem fracDigits_digits (fp : ℕ) :
    ∀ c ∈ (fracDigits fp).data, c.isDigit = true := by
  intro c hc
  simp only [fracDigits] at hc
  obtain ⟨i, _, rfl⟩ := List.mem_map.mp hc
  exact digitChar_isDigit _ (Nat.mod_lt _ (by norm_num))

/-- fmtF of zero. -/
theorem fmtF_zero : fmtF 0 = " 0.000000" := by
  simp only [fmtF, abs_zero, zero_mul, round_zero]
  rw [if_pos (le_refl (0 : ℝ))]
  rfl

/-- fmtF of one. -/
theorem fmtF_one : fmtF 1 = " 1.000000" := by
  simp only [fmtF, abs_one, one_mul]
  rw [show round ((1000000 : ℝ)) = (1000000 : ℤ) by norm_num]
  rw [if_pos (by norm_num : (0 : ℝ) ≤ 1)]
  rfl

/-- fmtF of minus one. -/
theorem fmtF_neg_one : fmtF (-1) = "-1.000000" := by
  simp only [fmtF, abs_neg, abs_one, one_mul]
  rw [show round ((1000000 : ℝ)) = (1000000 : ℤ) by norm_num]
  rw [if_neg (by norm_num : ¬ ((0 : ℝ) ≤ -1))]
  rfl

/-- A formatted value never contains a newline. -/
theorem fmtF_no_newline (x : ℝ) : (Char.ofNat 10) ∉ (fmtF x).data := by
  intro hmem
  simp only [fmtF, String.data_append] at hmem
  rcases List.mem_append.mp hmem with h | h
  · rcases List.mem_append.mp h with h | h
    · rcases List.mem_append.mp h with h | h
      · by_cases h0 : 0 ≤ x
        · rw [if_pos h0] at h
          exact absurd h (by decide)
        · rw [if_neg h0] at h
          exact absurd h (by decide)
      · obtain ⟨d, hd, hc⟩ := natDigitsAux_digits _ _ _ h
        exact digitChar_ne_newline d hd hc.symm
    · exact absurd h (by decide)
  · obtain ⟨i, _, hc⟩ := List.mem_map.mp h
    exact digitChar_ne_newline _ (Nat.mod_lt _ (by norm_num)) hc

/-- C7: build_transform renders exactly the matrix
[[c, -s, 0, dX], [s, c, 0, dY], [0, 0, zsign, 0]] with c = cos(radians dR),
s = sin(radians dR), zsign = -1 iff flip_z, and at (0, 0, 0, False) that
matrix is the identity-like [[1,0,0,0],[0,1,0,0],[0,0,1,0]]. -/
theorem c7_build_transform (dR dX dY : ℝ) (fz : Bool) :
    buildMatrix dR dX dY fz =
      [[Real.cos (radians dR), -Real.sin (radians dR), 0, dX],
       [Real.sin (radians dR), Real.cos (radians dR), 0, dY],
       [0, 0, if fz then -1 else 1, 0]] ∧
    build_transform dR dX dY fz = matrixLines (buildMatrix dR dX dY fz) ∧
    buildMatrix 0 0 0 false = [[1, 0, 0, 0], [0, 1, 0, 0], [0, 0, 1, 0]] := by
  refine ⟨rfl, rfl, ?_⟩
  simp [buildMatrix, radians]


/-- C8 counterexample: at (dR, dX, dY, flip_z) = (0, 0, 0, False) the
written text is not the fully sign-aligned rendering the claim describes:
the third row starts with the literal "0.000000", without the leading
space a non-negative value is claimed to get. -/
theorem c8_counterexample :
    build_transform 0 0 0 false ≠ serializeAligned (buildMatrix 0 0 0 false) := by
  have h1 : build_transform 0 0 0 false =
      " 1.000000  0.000000  0.000000  0.000000\n 0.000000  1.000000  0.000000  0.000000\n0.000000  0.000000  1.000000  0.000000\n" := by
    simp only [build_transform, radians, zero_mul, zero_div, Real.cos_zero, Real.sin_zero,
      neg_zero, fmtF_zero, fmtF_one, Bool.false_eq_true, if_false]
    rfl
  have h2 : serializeAligned (buildMatrix 0 0 0 false) =
      " 1.000000  0.000000  0.000000  0.000000\n 0.000000  1.000000  0.000000  0.000000\n 0.000000  0.000000  1.000000  0.000000\n" := by
    simp only [serializeAligned, buildMatrix, radians, zero_mul, zero_div, Real.cos_zero,
      Real.sin_zero, neg_zero, fmtF_zero, fmtF_one, Bool.false_eq_true, if_false,
      List.map_cons, List.map_nil, joinSep]
    rfl
  rw [h1, h2]
  decide

/-- C8 amended: the output is three newline-terminated rows; rows one and
two are exactly the sign-aligned space-joined fmtF renderings of the
matrix rows, while row three equals that rendering with its single leading
space removed (its first zero is a hard-coded "0.000000"); every fmtF
value starts with a space when non-negative and a minus sign when
negative, ends in a point followed by exactly six digit characters, and
contains no newline. -/
theorem c8_corrected_serialization (dR dX dY : ℝ) (fz : Bool) :
    ∃ row3 : String,
      (build_transform dR dX dY fz =
        joinSep " " (((buildMatrix dR dX dY fz).getD 0 []).map fmtF) ++ "\n" ++
        joinSep " " (((buildMatrix dR dX dY fz).getD 1 []).map fmtF) ++ "\n" ++
        row3 ++ "\n") ∧
      (joinSep " " (((buildMatrix dR dX dY fz).getD 2 []).map fmtF) = " " ++ row3) ∧
      (∀ x : ℝ, 0 ≤ x → (fmtF x).data.head? = some ' ') ∧
      (∀ x : ℝ, x < 0 → (fmtF x).data.head? = some '-') ∧
      (∀ x : ℝ, ∃ a fp, fmtF x = a ++ "." ++ fracDigits fp ∧ (fracDigits fp).length = 6 ∧
        ∀ c ∈ (fracDigits fp).data, c.isDigit = true) ∧
      (∀ x : ℝ, ('\n' : Char) ∉ (fmtF x).data) := by
  refine ⟨"0.000000  0.000000 " ++ fmtF (if fz then -1 else 1) ++ "  0.000000",
    ?_, ?_, ?_, ?_, ?_, ?_⟩
  · have d1 : ("  0.000000 " : String).data =
        [' ', ' ', '0', '.', '0', '0', '0', '0', '0', '0', ' '] := rfl
    have d2 : (" 0.000000" : String).data =
        [' ', '0', '.', '0', '0', '0', '0', '0', '0'] := rfl
    have d5 : (" " : String).data = [' '] := rfl
    have d6 : ("\n" : String).data = ['\n'] := rfl
    apply str_ext
    simp [build_transform, buildMatrix, joinSep, fmtF_zero, String.data_append,
      List.append_assoc, d1, d2, d5, d6]
  · have d3 : ("0.000000  0.000000 " : String).data =
        ['0', '.', '0', '0', '0', '0', '0', '0', ' ', ' ',
         '0', '.', '0', '0', '0', '0', '0', '0', ' '] := rfl
    have d4 : ("  0.000000" : String).data =
        [' ', ' ', '0', '.', '0', '0', '0', '0', '0', '0'] := rfl
    have d2 : (" 0.000000" : String).data =
        [' ', '0', '.', '0', '0', '0', '0', '0', '0'] := rfl
    have d5 : (" " : String).data = [' '] := rfl
    apply str_ext
    simp [buildMatrix, joinSep, fmtF_zero, String.data_append,
      List.append_assoc, d2, d3, d4, d5]
  · intro x hx
    simp only [fmtF, String.data_append]
    rw [if_pos hx]
    rfl
  · intro x hx
    simp only [fmtF, String.data_append]
    rw [if_neg (not_le.mpr hx)]
    rfl
  · intro x
    exact ⟨(if 0 ≤ x then " " else "-") ++
        natStr (round (|x| * 1000000) / 1000000).toNat,
      (round (|x| * 1000000) % 1000000).toNat, rfl, fracDigits_length _, fracDigits_digits _⟩
  · intro x hx
    exact fmtF_no_newline x (by
      rw [show Char.ofNat 10 = ('\n' : Char) from rfl]
      exact hx)

/-- Witness for the amended C8 at a concrete input. -/
theorem c8_corrected_serialization_witness :
    (0 : ℝ) ≤ 1 ∧ (fmtF 1).data.head? = some ' ' := by
  obtain ⟨r3, _, _, hpos, _, _, _⟩ := c8_corrected_serialization 0 0 0 false
  exact ⟨by norm_num, hpos 1 (by norm_num)⟩

end T2T
